import Mathlib

/-!
# purinrecvcc: PGM receiver example

A shallow embedding of `openpgm/pgm/examples/purinrecvcc.cc`:

* the dispatch loop of `main` (POSIX `select` path, and the timeout
  conversion of the Windows path),
* the signal handler `on_signal`,
* argument parsing and Reed-Solomon validation in `main`,
* the session bootstrap `on_startup`,
* the data handler `on_data`.

Calls into the PGM library and the C library are recorded as events of a
trace; what they return is an input of the model.
-/

namespace Purinrecv

/-! ## Dispatch loop -/

/-- Modelled from the spec: the `PGM_IO_STATUS_*` enumeration is declared in the
PGM headers, which are not part of the source file.  The five statuses the loop
names are constructors; every other integer code is `other`. -/
inductive pgm_io_status
  | PGM_IO_STATUS_ERROR
  | PGM_IO_STATUS_NORMAL
  | PGM_IO_STATUS_WOULD_BLOCK
  | PGM_IO_STATUS_RATE_LIMITED
  | PGM_IO_STATUS_TIMER_PENDING
  | other (code : Int)
  deriving DecidableEq, Repr

open pgm_io_status

/-- The C `struct timeval`. -/
structure timeval where
  tv_sec : Int
  tv_usec : Int
  deriving DecidableEq, Repr

/-- Modelled from the spec: `ip::pgm::endpoint` is declared in `pgm/pgm.hh`, which is
not part of the source file; an endpoint is a session identifier and a port. -/
structure endpoint where
  gsi : List Nat
  port : Nat
  deriving DecidableEq, Repr

/-- The two options the loop reads with `sock->get_option`. -/
inductive remain_option
  | PGM_TIME_REMAIN
  | PGM_RATE_REMAIN
  deriving DecidableEq, Repr

/-- What `select` hands back: its return value, whether `terminate_pipe[0]` is
set in `readfds`, and whether the call suspended the process before returning. -/
structure SelectResult where
  ret : Int
  term_ready : Bool
  blocked : Bool
  deriving DecidableEq, Repr

/-- Calls made by one run of the dispatch loop, in program order. -/
inductive LoopEvent
  | receive_from
  | on_data (data : List Nat) (len : Nat) (src : endpoint)
  | get_option (name : remain_option)
  | select (timeout : Option timeval) (res : SelectResult)
  | fprintf_err (message : String)
  | pgm_error_free
  deriving DecidableEq, Repr

/-- What the environment does while the process sits in `select`. -/
inductive WaitEnv
  /-- a transport descriptor is readable when `select` is entered -/
  | sock_ready_now
  /-- a transport descriptor becomes readable while the process is blocked -/
  | sock_ready_later
  /-- nothing becomes readable -/
  | quiet
  /-- `select` fails (returns -1) -/
  | failure
  /-- SIGINT or SIGTERM is delivered while the process is in the wait step -/
  | signal
  deriving DecidableEq, Repr

/-- Result of `sock->receive_from (buffer, sizeof(buffer), 0, &len, &from, &pgm_err)`. -/
structure RecvResult where
  status : pgm_io_status
  buffer : List Nat
  len : Nat
  src : endpoint
  err : Option String
  deriving DecidableEq, Repr

/-- Everything the environment contributes to one iteration of the loop. -/
structure IterInput where
  /-- a signal is delivered before `receive_from` is called -/
  sig_before_recv : Bool
  recv : RecvResult
  /-- a signal is delivered after `receive_from` returned, before the `switch` -/
  sig_after_recv : Bool
  /-- content of the uninitialised local `tv` -/
  tv_uninit : timeval
  /-- what the transport reports for `PGM_TIME_REMAIN` -/
  time_remain : timeval
  /-- what the transport reports for `PGM_RATE_REMAIN` -/
  rate_remain : timeval
  wait : WaitEnv
  /-- a signal is delivered after the `switch`, before `while (!is_terminated)` -/
  sig_before_check : Bool
  deriving DecidableEq, Repr

/-- The variables the loop and the signal handler share, with the trace of calls:
the global `is_terminated`, the bytes written to `terminate_pipe[1]` and not read
from `terminate_pipe[0]`, and the local `pgm_err` of `main`. -/
structure LoopState where
  is_terminated : Bool
  pipe_unread : Nat
  pgm_err : Option String
  trace : List LoopEvent
  deriving DecidableEq, Repr

/-- The handler `on_signal`: sets the flag and writes one byte to the pipe. -/
def on_signal (s : LoopState) : LoopState :=
  { s with is_terminated := true, pipe_unread := s.pipe_unread + 1 }

/-- Deliver a signal when the environment says so. -/
def deliver (b : Bool) (s : LoopState) : LoopState :=
  if b then on_signal s else s

/-- The system call `select (fds, &readfds, NULL, NULL, timeout)` on the read set
holding `terminate_pipe[0]` and the transport descriptors.  The pipe is readable
as long as it holds an unread byte.  `none`: the call never returns. -/
def select_model (pipe_unread : Nat) (w : WaitEnv) (timeout : Option timeval) :
    Option SelectResult :=
  if w = WaitEnv.failure then
    some { ret := -1, term_ready := false, blocked := false }
  else if 0 < pipe_unread then
    some { ret := if w = WaitEnv.sock_ready_now then 2 else 1, term_ready := true, blocked := false }
  else
    match w with
    | WaitEnv.sock_ready_now => some { ret := 1, term_ready := false, blocked := false }
    | WaitEnv.sock_ready_later => some { ret := 1, term_ready := false, blocked := true }
    | WaitEnv.quiet =>
      match timeout with
      | some _ => some { ret := 0, term_ready := false, blocked := true }
      | none => none
    | WaitEnv.failure => some { ret := -1, term_ready := false, blocked := false }
    | WaitEnv.signal => some { ret := -1, term_ready := false, blocked := true }

/-- The code at label `block:` (POSIX path): one `select` call whose timeout is
`PGM_IO_STATUS_WOULD_BLOCK == status ? NULL : &tv`. -/
def block (s : LoopState) (status : pgm_io_status) (tv : timeval) (w : WaitEnv) :
    Option LoopState :=
  let timeout := if PGM_IO_STATUS_WOULD_BLOCK = status then none else some tv
  match select_model s.pipe_unread w timeout with
  | none => none
  | some r =>
    let s1 := { s with trace := s.trace ++ [LoopEvent.select timeout r] }
    some (deliver (w = WaitEnv.signal) s1)

/-- The `default:` branch of the `switch`. -/
def default_case (s : LoopState) : LoopState :=
  match s.pgm_err with
  | some m =>
    { s with pgm_err := none,
             trace := s.trace ++ [LoopEvent.fprintf_err m, LoopEvent.pgm_error_free] }
  | none => s

/-- The `switch (status)` of the loop body. -/
def switch_status (s : LoopState) (i : IterInput) : Option LoopState :=
  match i.recv.status with
  | PGM_IO_STATUS_NORMAL =>
    some { s with trace := s.trace ++ [LoopEvent.on_data i.recv.buffer i.recv.len i.recv.src] }
  | PGM_IO_STATUS_TIMER_PENDING =>
    block { s with trace := s.trace ++ [LoopEvent.get_option remain_option.PGM_TIME_REMAIN] }
      i.recv.status i.time_remain i.wait
  | PGM_IO_STATUS_RATE_LIMITED =>
    block { s with trace := s.trace ++ [LoopEvent.get_option remain_option.PGM_RATE_REMAIN] }
      i.recv.status i.rate_remain i.wait
  | PGM_IO_STATUS_WOULD_BLOCK =>
    block s i.recv.status i.tv_uninit i.wait
  | _ => some (default_case s)

/-- The call `sock->receive_from (..., &pgm_err)`. -/
def receive_from (s : LoopState) (r : RecvResult) : LoopState :=
  { s with pgm_err := (match r.err with | some e => some e | none => s.pgm_err),
           trace := s.trace ++ [LoopEvent.receive_from] }

/-- One pass through the body of `do { ... } while (!is_terminated)`.
`none`: the body never reaches the loop condition. -/
def loop_body (s : LoopState) (i : IterInput) : Option LoopState :=
  let s1 := deliver i.sig_before_recv s
  let s2 := receive_from s1 i.recv
  let s3 := deliver i.sig_after_recv s2
  match switch_status s3 i with
  | none => none
  | some s4 => some (deliver i.sig_before_check s4)

/-- Where a run of the loop over finitely many inputs stands. -/
inductive LoopOutcome
  /-- the loop condition failed: control is after the loop -/
  | exited (s : LoopState)
  /-- every input was consumed: control is at the top of the body -/
  | running (s : LoopState)
  /-- the process is blocked in `select` for ever -/
  | stuck
  deriving DecidableEq, Repr

/-- The loop `do { body } while (!is_terminated)` run over the given inputs. -/
def dispatch_loop (s : LoopState) : List IterInput → LoopOutcome
  | [] => LoopOutcome.running s
  | i :: rest =>
    match loop_body s i with
    | none => LoopOutcome.stuck
    | some s1 => if s1.is_terminated then LoopOutcome.exited s1 else dispatch_loop s1 rest

/-- Number of receive attempts in a trace. -/
def recv_count (tr : List LoopEvent) : Nat :=
  (tr.filter (fun e => e = LoopEvent.receive_from)).length

/-- The arguments of the `on_data` calls of a trace, in order. -/
def data_calls (tr : List LoopEvent) : List (List Nat × Nat × endpoint) :=
  tr.filterMap (fun e => match e with
    | LoopEvent.on_data d l f => some (d, l, f)
    | _ => none)

/-- The timeouts of the `select` calls of a trace, in order. -/
def select_calls (tr : List LoopEvent) : List (Option timeval) :=
  tr.filterMap (fun e => match e with
    | LoopEvent.select t _ => some t
    | _ => none)

/-- The results of the `select` calls of a trace, in order. -/
def select_results (tr : List LoopEvent) : List SelectResult :=
  tr.filterMap (fun e => match e with
    | LoopEvent.select _ r => some r
    | _ => none)

/-- The statuses that lead to the wait step. -/
def waits (st : pgm_io_status) : Bool :=
  st = PGM_IO_STATUS_TIMER_PENDING || st = PGM_IO_STATUS_RATE_LIMITED ||
    st = PGM_IO_STATUS_WOULD_BLOCK

/-- A signal is delivered at some point of the iteration: at one of the three
points outside the wait step, or inside a wait step that the status leads to. -/
def signal_delivered (i : IterInput) : Bool :=
  i.sig_before_recv || i.sig_after_recv || i.sig_before_check ||
    (decide (i.wait = WaitEnv.signal) && waits i.recv.status)

/-- A signal is delivered before the wait step can be entered. -/
def signal_before_wait (i : IterInput) : Bool :=
  i.sig_before_recv || i.sig_after_recv

/-- The environment lets the wait step return whatever the pipe holds: something
other than silence happens, or the wait carries a deadline. -/
def wait_returns (i : IterInput) : Bool :=
  decide (i.wait ≠ WaitEnv.quiet) || decide (i.recv.status ≠ PGM_IO_STATUS_WOULD_BLOCK)

/-! ## Windows wait path -/

/-- Memory traffic of a copy into `buf`: the content of `buf`, the offsets read
from the source, the offsets written in `buf`, both in program order. -/
structure CopyState where
  buf : Nat → Nat
  reads : List Nat
  writes : List Nat

/-- The C library `strncpy (dst, src, n)` from offset `i` on, with `k` bytes
still to write: bytes of `src` are copied up to and including the first NUL,
every later byte written is NUL. -/
def strncpy_loop (src : List Nat) : Nat → Nat → Bool → CopyState → CopyState
  | 0, _, _, st => st
  | k + 1, i, padding, st =>
    if padding then
      strncpy_loop src k (i + 1) true
        { st with buf := Function.update st.buf i 0, writes := st.writes ++ [i] }
    else
      strncpy_loop src k (i + 1) (src.getD i 0 == 0)
        { buf := Function.update st.buf i (src.getD i 0), reads := st.reads ++ [i],
          writes := st.writes ++ [i] }

/-- The C library `strncpy (dst, src, n)`. -/
def strncpy (dst : Nat → Nat) (src : List Nat) (n : Nat) : CopyState :=
  strncpy_loop src n 0 false { buf := dst, reads := [], writes := [] }

/-- The text `printf` renders for `%s`: the bytes from offset `i` up to the
first NUL, at most `fuel` of them. -/
def c_string (mem : Nat → Nat) : Nat → Nat → List Nat
  | 0, _ => []
  | fuel + 1, i => if mem i = 0 then [] else mem i :: c_string mem fuel (i + 1)

/-- What `on_data` does: its return value, the final content of `buf`, the
offsets of `data` it read, the offsets of `buf` it wrote, and the three
arguments rendered by `printf`. -/
structure OnDataResult where
  ret : Int
  buf : Nat → Nat
  reads : List Nat
  writes : List Nat
  printed_text : List Nat
  printed_len : Nat
  printed_src : endpoint

/-- The handler `on_data (data, len, from)`; `uninit` is the content of the
uninitialised `char buf[1024]`. -/
def on_data (uninit : Nat → Nat) (data : List Nat) (len : Nat) (src : endpoint) :
    OnDataResult :=
  let buflen := min (1024 - 1) len
  let st := strncpy uninit data buflen
  let buf := Function.update st.buf buflen 0
  { ret := 0, buf := buf, reads := st.reads, writes := st.writes ++ [buflen],
    printed_text := c_string buf 1024 0, printed_len := len, printed_src := src }

/-! ## Program arguments and session bootstrap -/

/-- The socket options written by `on_startup`. -/
inductive pgm_sockopt
  | PGM_UDP_ENCAP_UCAST_PORT | PGM_UDP_ENCAP_MCAST_PORT | PGM_IP_ROUTER_ALERT
  | PGM_RECV_ONLY | PGM_PASSIVE | PGM_MTU | PGM_RXW_SQNS | PGM_PEER_EXPIRY
  | PGM_SPMR_EXPIRY | PGM_NAK_BO_IVL | PGM_NAK_RPT_IVL | PGM_NAK_RDATA_IVL
  | PGM_NAK_DATA_RETRIES | PGM_NAK_NCF_RETRIES | PGM_USE_FEC | PGM_JOIN_GROUP
  | PGM_SEND_GROUP | PGM_MULTICAST_LOOP | PGM_MULTICAST_HOPS | PGM_TOS | PGM_NOBLOCK
  deriving DecidableEq, Repr

open pgm_sockopt

/-- Modelled from the spec: `struct pgm_fecinfo_t` is declared in the PGM headers,
which are not part of the source file.  Each field holds the value the source
assigns to it. -/
structure pgm_fecinfo_t where
  block_size : Int
  proactive_packets : Int
  group_size : Int
  ondemand_parity_enabled : Bool
  var_pktlen_enabled : Bool
  deriving DecidableEq, Repr

/-- Modelled from the spec: a group descriptor (`struct group_source_req`), reduced
to the address family of the group and its address text. -/
structure group_req where
  ss_family : Nat
  group : String
  deriving DecidableEq, Repr

/-- Modelled from the spec: `struct pgm_addrinfo_t`, the resolved address list: the
receive groups (`ai_recv_addrs`, `ai_recv_addrs_len` of them) and the send
groups, of which `on_startup` uses the first. -/
structure pgm_addrinfo_t where
  ai_recv_addrs : List group_req
  ai_send_addrs_0 : group_req
  deriving DecidableEq, Repr

/-- The value handed to `set_option`. -/
inductive optval
  | int (v : Int)
  | fecinfo (f : pgm_fecinfo_t)
  | group (g : group_req)
  deriving DecidableEq, Repr

/-- The protocol argument of `sock->open`. -/
inductive ipproto
  | IPPROTO_UDP
  | IPPROTO_PGM
  deriving DecidableEq, Repr

/-- Calls made by `main` before the loop and by `on_startup`, in program order. -/
inductive SysEvent
  | fprintf_stderr (message : String)
  | fprintf_invalid_rs (rs_n rs_k : Int)
  | puts (message : String)
  | usage
  | pgm_if_print_all
  | setup_signal_handlers
  | on_startup
  | pgm_getaddrinfo (network : String) (ok : Bool)
  | new_socket
  | sock_open (family : Nat) (protocol : ipproto) (ok : Bool)
  | set_option (name : pgm_sockopt) (val : optval)
  | pgm_drop_superuser
  | new_endpoint (port : Nat)
  | sock_bind (ok : Bool)
  | pgm_freeaddrinfo
  | sock_connect (ok : Bool)
  | sock_close (flush : Bool)
  | pgm_error_free
  deriving DecidableEq, Repr

/-- The configuration globals of the program. -/
structure Globals where
  port : Int
  network : String
  use_multicast_loop : Bool
  udp_encap_port : Int
  max_tpdu : Int
  sqns : Int
  use_fec : Bool
  rs_k : Int
  rs_n : Int
  deriving DecidableEq, Repr

/-- The initial values of the configuration globals. -/
def globals_init : Globals :=
  { port := 0, network := "", use_multicast_loop := false, udp_encap_port := 0,
    max_tpdu := 1500, sqns := 100, use_fec := false, rs_k := 8, rs_n := 255 }

/-- Modelled from the spec: `ip::pgm::socket` is declared in `pgm/pgm.hh`, which is
not part of the source file; of the socket object the model keeps whether it
is open, bound, connected. -/
structure pgm_socket where
  is_open : Bool
  is_bound : Bool
  is_connected : Bool
  deriving DecidableEq, Repr

/-- What the collaborators of `on_startup` answer: the resolved address list or
the error message of `pgm_getaddrinfo`, and for `open`, `bind` and `connect`
the error message of a failure (`none`: success). -/
structure StartupEnv where
  getaddrinfo : Except String pgm_addrinfo_t
  open_err : Option String
  bind_err : Option String
  connect_err : Option String

/-- What `on_startup` leaves: its return value, the globals `sock` and
`endpoint`, and the calls it made. -/
structure StartupResult where
  ret : Bool
  sock : Option pgm_socket
  endpoint : Option endpoint
  trace : List SysEvent
  deriving DecidableEq, Repr

/-- Modelled from the spec: `DEFAULT_DATA_DESTINATION_PORT` is defined in the PGM
headers, which are not part of the source file; 7500 is the port of the
bootstrap scenario. -/
def DEFAULT_DATA_DESTINATION_PORT : Nat := 7500

/-- The code at label `err_abort:`; `res` and `pgm_err` are the locals of
`on_startup`, `sock` the global. -/
def err_abort (sock : Option pgm_socket) (res : Option pgm_addrinfo_t)
    (pgm_err : Option String) (ep : Option endpoint) (tr : List SysEvent) : StartupResult :=
  let tr1 := if sock.isSome then tr ++ [SysEvent.sock_close false] else tr
  let tr2 := if res.isSome then tr1 ++ [SysEvent.pgm_freeaddrinfo] else tr1
  let tr3 := if pgm_err.isSome then tr2 ++ [SysEvent.pgm_error_free] else tr2
  { ret := false, sock := none, endpoint := ep, trace := tr3 }

/-- The calls that create and open the socket, up to the result of `open`. -/
def open_events (g : Globals) (sa_family : Nat) (ok : Bool) : List SysEvent :=
  if g.udp_encap_port ≠ 0 then
    [SysEvent.puts "Create PGM/UDP socket.", SysEvent.sock_open sa_family ipproto.IPPROTO_UDP ok]
  else
    [SysEvent.puts "Create PGM/IP socket.", SysEvent.sock_open sa_family ipproto.IPPROTO_PGM ok]

/-- The message printed when `open` fails. -/
def open_failure_message (g : Globals) (m : String) : String :=
  if g.udp_encap_port ≠ 0 then "Creating PGM/UDP socket: " ++ m
  else "Creating PGM/IP socket: " ++ m

/-- The option writes between `open` and `bind`. -/
def pre_bind_options (g : Globals) : List SysEvent :=
  (if g.udp_encap_port ≠ 0 then
    [SysEvent.set_option PGM_UDP_ENCAP_UCAST_PORT (optval.int g.udp_encap_port),
     SysEvent.set_option PGM_UDP_ENCAP_MCAST_PORT (optval.int g.udp_encap_port)]
   else []) ++
  [SysEvent.set_option PGM_IP_ROUTER_ALERT (optval.int 0),
   SysEvent.pgm_drop_superuser,
   SysEvent.set_option PGM_RECV_ONLY (optval.int 1),
   SysEvent.set_option PGM_PASSIVE (optval.int 0),
   SysEvent.set_option PGM_MTU (optval.int g.max_tpdu),
   SysEvent.set_option PGM_RXW_SQNS (optval.int g.sqns),
   SysEvent.set_option PGM_PEER_EXPIRY (optval.int (300 * 1000000)),
   SysEvent.set_option PGM_SPMR_EXPIRY (optval.int (250 * 1000)),
   SysEvent.set_option PGM_NAK_BO_IVL (optval.int (50 * 1000)),
   SysEvent.set_option PGM_NAK_RPT_IVL (optval.int (2 * 1000000)),
   SysEvent.set_option PGM_NAK_RDATA_IVL (optval.int (2 * 1000000)),
   SysEvent.set_option PGM_NAK_DATA_RETRIES (optval.int 50),
   SysEvent.set_option PGM_NAK_NCF_RETRIES (optval.int 50)] ++
  (if g.use_fec then
    [SysEvent.set_option PGM_USE_FEC (optval.fecinfo
      { block_size := g.rs_n, proactive_packets := 0, group_size := g.rs_k,
        ondemand_parity_enabled := true, var_pktlen_enabled := false })]
   else [])

/-- The calls between `bind` and `connect`: group joins, release of the address
list, IP parameters. -/
def post_bind_options (g : Globals) (res : pgm_addrinfo_t) : List SysEvent :=
  res.ai_recv_addrs.map (fun a => SysEvent.set_option PGM_JOIN_GROUP (optval.group a)) ++
  [SysEvent.set_option PGM_SEND_GROUP (optval.group res.ai_send_addrs_0),
   SysEvent.pgm_freeaddrinfo,
   SysEvent.set_option PGM_MULTICAST_LOOP (optval.int (if g.use_multicast_loop then 1 else 0)),
   SysEvent.set_option PGM_MULTICAST_HOPS (optval.int 16),
   SysEvent.set_option PGM_TOS (optval.int (0x2e * 4)),
   SysEvent.set_option PGM_NOBLOCK (optval.int 1)]

/-- The function `on_startup`; `sock0` and `ep0` are the globals `sock` and
`endpoint` on entry. -/
def on_startup (g : Globals) (sock0 : Option pgm_socket) (ep0 : Option endpoint)
    (env : StartupEnv) : StartupResult :=
  match env.getaddrinfo with
  | Except.error m =>
    err_abort sock0 none (some m) ep0
      [SysEvent.on_startup, SysEvent.pgm_getaddrinfo g.network false,
       SysEvent.fprintf_stderr ("Parsing network parameter: " ++ m)]
  | Except.ok res =>
    let sa_family := res.ai_send_addrs_0.ss_family
    let tr1 := [SysEvent.on_startup, SysEvent.pgm_getaddrinfo g.network true, SysEvent.new_socket]
    let sock1 : pgm_socket := { is_open := false, is_bound := false, is_connected := false }
    match env.open_err with
    | some m =>
      err_abort (some sock1) (some res) (some m) ep0
        (tr1 ++ open_events g sa_family false ++
          [SysEvent.fprintf_stderr (open_failure_message g m)])
    | none =>
      let sock2 := { sock1 with is_open := true }
      let ep := endpoint.mk [] DEFAULT_DATA_DESTINATION_PORT
      let tr2 := tr1 ++ open_events g sa_family true ++ pre_bind_options g ++
        [SysEvent.new_endpoint DEFAULT_DATA_DESTINATION_PORT]
      match env.bind_err with
      | some m =>
        err_abort (some sock2) (some res) (some m) (some ep)
          (tr2 ++ [SysEvent.sock_bind false,
            SysEvent.fprintf_stderr ("Binding PGM socket: " ++ m)])
      | none =>
        let sock3 := { sock2 with is_bound := true }
        let tr3 := tr2 ++ [SysEvent.sock_bind true] ++ post_bind_options g res
        match env.connect_err with
        | some m =>
          err_abort (some sock3) (some res) (some m) (some ep)
            (tr3 ++ [SysEvent.sock_connect false,
              SysEvent.fprintf_stderr ("Connecting PGM socket: " ++ m)])
        | none =>
          { ret := true, sock := some { sock3 with is_connected := true }, endpoint := some ep,
            trace := tr3 ++ [SysEvent.sock_connect true, SysEvent.puts "Startup complete."] }

/-- Number of `pgm_freeaddrinfo` calls in a trace. -/
def freeaddrinfo_count (tr : List SysEvent) : Nat :=
  tr.count SysEvent.pgm_freeaddrinfo

/-- Resolution of the network `239.192.0.1` into one receive group and one send group. -/
def sample_addrinfo : pgm_addrinfo_t :=
  { ai_recv_addrs := [⟨2, "239.192.0.1"⟩], ai_send_addrs_0 := ⟨2, "239.192.0.1"⟩ }

/-- Collaborators of which `connect` fails. -/
def env_connect_fails : StartupEnv :=
  { getaddrinfo := Except.ok sample_addrinfo, open_err := none, bind_err := none,
    connect_err := some "connect failed" }

/-- A payload 1000 bytes longer than the render buffer, filled with the letter A. -/
def overlong_payload : List Nat := List.replicate (1024 + 1000) 65

/-- The deadline the specification attaches to each status: none for a status that does
not lead to the wait step, `NULL` for WouldBlock, the reported pacing delay for
RateLimited, the reported timer duration for TimerPending. -/
def spec_wait_deadlines (i : IterInput) : List (Option timeval) :=
  match i.recv.status with
  | PGM_IO_STATUS_WOULD_BLOCK => [none]
  | PGM_IO_STATUS_RATE_LIMITED => [some i.rate_remain]
  | PGM_IO_STATUS_TIMER_PENDING => [some i.time_remain]
  | _ => []

/-- The handler calls the specification attaches to each status: one for Normal, with
the payload, length and origin of the attempt, none otherwise. -/
def spec_data_calls (i : IterInput) : List (List Nat × Nat × endpoint) :=
  if i.recv.status = PGM_IO_STATUS_NORMAL then [(i.recv.buffer, i.recv.len, i.recv.src)] else []

/-- The state in which `main` enters the loop: flag unset, pipe empty, no error. -/
def loop_init : LoopState :=
  { is_terminated := false, pipe_unread := 0, pgm_err := none, trace := [] }

/-- An input without signals in which the transport descriptors become readable
while the process waits. -/
def quiet_input (r : RecvResult) : IterInput :=
  { sig_before_recv := false, recv := r, sig_after_recv := false,
    tv_uninit := ⟨0, 0⟩, time_remain := ⟨0, 0⟩, rate_remain := ⟨0, 0⟩,
    wait := WaitEnv.sock_ready_later, sig_before_check := false }

/-- The bytes of the text `hello`. -/
def hello : List Nat := [104, 101, 108, 108, 111]

/-- The status sequence WouldBlock, WouldBlock, Normal (`hello`, 5, `E`). -/
def hello_scenario (E : endpoint) : List IterInput :=
  [ quiet_input ⟨PGM_IO_STATUS_WOULD_BLOCK, [], 0, ⟨[], 0⟩, none⟩,
    quiet_input ⟨PGM_IO_STATUS_WOULD_BLOCK, [], 0, ⟨[], 0⟩, none⟩,
    quiet_input ⟨PGM_IO_STATUS_NORMAL, hello, 5, E, none⟩ ]

/-- An iteration in which the transport is rate limited for 1.5 ms and nothing
becomes readable before the deadline. -/
def rate_limited_input : IterInput :=
  { sig_before_recv := false, recv := ⟨PGM_IO_STATUS_RATE_LIMITED, [], 0, ⟨[], 0⟩, none⟩,
    sig_after_recv := false, tv_uninit := ⟨77, 77⟩, time_remain := ⟨9, 0⟩,
    rate_remain := ⟨0, 1500⟩, wait := WaitEnv.quiet, sig_before_check := false }

/-- An iteration in which the receive attempt would block, a signal arrives
between the attempt and the wait step, and nothing else ever happens. -/
def signal_before_wait_input : IterInput :=
  { sig_before_recv := false, recv := ⟨PGM_IO_STATUS_WOULD_BLOCK, [], 0, ⟨[], 0⟩, none⟩,
    sig_after_recv := true, tv_uninit := ⟨0, 0⟩, time_remain := ⟨0, 0⟩,
    rate_remain := ⟨0, 0⟩, wait := WaitEnv.quiet, sig_before_check := false }

/-! ## Properties of the dispatch loop -/

section LoopLemmas

lemma deliver_trace (b : Bool) (s : LoopState) : (deliver b s).trace = s.trace := by
  cases b <;> rfl

lemma deliver_term_mono (b : Bool) (s : LoopState) (h : s.is_terminated = true) :
    (deliver b s).is_terminated = true := by
  cases b <;> simp [deliver, on_signal, h]

lemma deliver_pipe_mono (b : Bool) (s : LoopState) :
    s.pipe_unread ≤ (deliver b s).pipe_unread := by
  cases b <;> simp [deliver, on_signal]

/-- What the code at `block:` does to the state when `select` returns. -/
lemma block_some (s s1 : LoopState) (st : pgm_io_status) (tv : timeval) (w : WaitEnv)
    (h : block s st tv w = some s1) :
    ∃ r, select_model s.pipe_unread w
          (if PGM_IO_STATUS_WOULD_BLOCK = st then none else some tv) = some r ∧
      s1.trace = s.trace ++
        [LoopEvent.select (if PGM_IO_STATUS_WOULD_BLOCK = st then none else some tv) r] ∧
      (s.is_terminated = true → s1.is_terminated = true) ∧
      s.pipe_unread ≤ s1.pipe_unread ∧
      (w = WaitEnv.signal → s1.is_terminated = true ∧ 1 ≤ s1.pipe_unread) ∧
      (w ≠ WaitEnv.signal → s1.is_terminated = s.is_terminated) := by
  unfold block at h
  simp only at h
  split at h
  · exact absurd h (by simp)
  · rename_i r hr
    refine ⟨r, hr, ?_⟩
    have h1 := Option.some.inj h
    subst h1
    refine ⟨by simp [deliver_trace], ?_, ?_, ?_, ?_⟩
    · intro ht; exact deliver_term_mono _ _ ht
    · by_cases hw : w = WaitEnv.signal <;> simp [deliver, on_signal, hw]
    · intro hw; subst hw; simp [deliver, on_signal]
    · intro hw; simp [deliver, hw]

/-- The wait step returns when the pipe holds a byte, when the environment is not
silent, or when the wait carries a deadline. -/
lemma block_isSome (s : LoopState) (st : pgm_io_status) (tv : timeval) (w : WaitEnv)
    (h : 0 < s.pipe_unread ∨ w ≠ WaitEnv.quiet ∨ st ≠ PGM_IO_STATUS_WOULD_BLOCK) :
    ∃ s1, block s st tv w = some s1 := by
  unfold block select_model
  by_cases hf : w = WaitEnv.failure
  · simp [hf]
  · by_cases hp : 0 < s.pipe_unread
    · simp [hf, hp]
    · rcases h with h | h | h
      · exact absurd h hp
      · cases w <;> simp_all
      · have hst : ¬ (PGM_IO_STATUS_WOULD_BLOCK = st) := fun e => h e.symm
        cases w <;> simp_all

/-- What the `switch` does to the state when it completes. -/
lemma switch_spec (s s1 : LoopState) (i : IterInput) (h : switch_status s i = some s1) :
    ∃ evs, s1.trace = s.trace ++ evs ∧ recv_count evs = 0 ∧
      data_calls evs = spec_data_calls i ∧
      select_calls evs = spec_wait_deadlines i ∧
      (select_results evs).length = (if waits i.recv.status then 1 else 0) ∧
      (∀ r ∈ select_results evs, ∃ t, select_model s.pipe_unread i.wait t = some r) ∧
      (s.is_terminated = true → s1.is_terminated = true) ∧
      s.pipe_unread ≤ s1.pipe_unread ∧
      (i.wait = WaitEnv.signal → waits i.recv.status = true →
        s1.is_terminated = true ∧ 1 ≤ s1.pipe_unread) ∧
      (i.wait ≠ WaitEnv.signal → s1.is_terminated = s.is_terminated) := by
  unfold switch_status at h
  cases hst : i.recv.status <;> rw [hst] at h <;> simp only at h
  case PGM_IO_STATUS_NORMAL =>
    have h1 := Option.some.inj h; subst h1
    exact ⟨_, rfl, by simp [recv_count], by simp [data_calls, spec_data_calls, hst],
      by simp [select_calls, spec_wait_deadlines, hst],
      by simp [select_results, waits], by simp [select_results], by simp, by simp,
      by simp [waits], by simp⟩
  case PGM_IO_STATUS_ERROR =>
    have h1 := Option.some.inj h; subst h1
    unfold default_case
    cases s.pgm_err <;>
    simp [recv_count, data_calls, spec_data_calls, hst, select_calls, spec_wait_deadlines,
      select_results, waits]
  case other c =>
    have h1 := Option.some.inj h; subst h1
    unfold default_case
    cases s.pgm_err <;>
    simp [recv_count, data_calls, spec_data_calls, hst, select_calls, spec_wait_deadlines,
      select_results, waits]
  case PGM_IO_STATUS_WOULD_BLOCK =>
    obtain ⟨r, hr, htr, hterm, hpipe, hsig, hns⟩ := block_some _ _ _ _ _ h
    refine ⟨_, htr, by simp [recv_count], by simp [data_calls, spec_data_calls, hst],
      by simp [select_calls, spec_wait_deadlines, hst],
      by simp [select_results, waits], ?_, hterm, hpipe, fun hw _ => hsig hw, hns⟩
    intro r1 hr1
    simp [select_results] at hr1
    subst hr1
    exact ⟨_, hr⟩
  case PGM_IO_STATUS_RATE_LIMITED =>
    obtain ⟨r, hr, htr, hterm, hpipe, hsig, hns⟩ := block_some _ _ _ _ _ h
    simp only [reduceCtorEq, if_false] at hr htr
    refine ⟨[LoopEvent.get_option remain_option.PGM_RATE_REMAIN, LoopEvent.select (some i.rate_remain) r],
      by rw [htr]; simp, by simp [recv_count],
      by simp [data_calls, spec_data_calls, hst],
      by simp [select_calls, spec_wait_deadlines, hst],
      by simp [select_results, waits], ?_, hterm, hpipe, fun hw _ => hsig hw, hns⟩
    intro r1 hr1
    simp [select_results] at hr1
    subst hr1
    exact ⟨_, hr⟩
  case PGM_IO_STATUS_TIMER_PENDING =>
    obtain ⟨r, hr, htr, hterm, hpipe, hsig, hns⟩ := block_some _ _ _ _ _ h
    simp only [reduceCtorEq, if_false] at hr htr
    refine ⟨[LoopEvent.get_option remain_option.PGM_TIME_REMAIN, LoopEvent.select (some i.time_remain) r],
      by rw [htr]; simp, by simp [recv_count],
      by simp [data_calls, spec_data_calls, hst],
      by simp [select_calls, spec_wait_deadlines, hst],
      by simp [select_results, waits], ?_, hterm, hpipe, fun hw _ => hsig hw, hns⟩
    intro r1 hr1
    simp [select_results] at hr1
    subst hr1
    exact ⟨_, hr⟩

/-- With a byte in the pipe `select` returns at once, and reports the pipe
readable unless the call itself failed. -/
lemma select_ready (p : Nat) (w : WaitEnv) (t : Option timeval) (r : SelectResult)
    (hp : 0 < p) (h : select_model p w t = some r) :
    r.blocked = false ∧ (0 ≤ r.ret → r.term_ready = true) := by
  unfold select_model at h
  by_cases hf : w = WaitEnv.failure
  · simp [hf] at h; subst h; simp
  · simp [hf, hp] at h; subst h; simp

/-- What one pass through the loop body does to the state when it completes. -/
lemma body_spec (s s1 : LoopState) (i : IterInput) (h : loop_body s i = some s1) :
    ∃ evs, s1.trace = s.trace ++ LoopEvent.receive_from :: evs ∧ recv_count evs = 0 ∧
      data_calls evs = spec_data_calls i ∧
      select_calls evs = spec_wait_deadlines i ∧
      (select_results evs).length = (if waits i.recv.status then 1 else 0) ∧
      (∃ p, s.pipe_unread ≤ p ∧ (signal_before_wait i = true → 1 ≤ p) ∧
        ∀ r ∈ select_results evs, ∃ t, select_model p i.wait t = some r) ∧
      (s.is_terminated = true → s1.is_terminated = true) ∧
      s.pipe_unread ≤ s1.pipe_unread ∧
      (signal_delivered i = true → s1.is_terminated = true ∧ 1 ≤ s1.pipe_unread) ∧
      (signal_delivered i = false → s1.is_terminated = s.is_terminated) := by
  unfold loop_body at h
  simp only at h
  split at h
  · exact absurd h (by simp)
  · rename_i s4 hs4
    have h1 := Option.some.inj h
    subst h1
    obtain ⟨evs, htr, hrc, hdc, hsc, hsr, hsel, hterm, hpipe, hsig, hns⟩ := switch_spec _ _ _ hs4
    refine ⟨evs, ?_, hrc, hdc, hsc, hsr, ⟨_, ?_, ?_, hsel⟩, ?_, ?_, ?_, ?_⟩
    · rw [deliver_trace, htr, deliver_trace]; simp [receive_from, deliver_trace]
    · cases i.sig_before_recv <;> cases i.sig_after_recv <;>
        simp [deliver, on_signal, receive_from]
      omega
    · cases hb : i.sig_before_recv <;> cases ha : i.sig_after_recv <;>
        simp [signal_before_wait, hb, ha, deliver, on_signal, receive_from]
    · intro ht
      apply deliver_term_mono
      apply hterm
      apply deliver_term_mono
      have := deliver_term_mono i.sig_before_recv s ht
      simpa [receive_from] using this
    · refine le_trans ?_ (deliver_pipe_mono _ _)
      refine le_trans ?_ hpipe
      cases i.sig_before_recv <;> cases i.sig_after_recv <;>
        simp [deliver, on_signal, receive_from]
      omega
    · intro hd
      cases hc : i.sig_before_check
      · simp only [deliver, Bool.false_eq_true, if_false]
        by_cases hw : i.wait = WaitEnv.signal ∧ waits i.recv.status = true
        · exact hsig hw.1 hw.2
        · have hbw : i.sig_before_recv = true ∨ i.sig_after_recv = true := by
            simp only [signal_delivered, hc, Bool.or_false, Bool.or_eq_true,
              Bool.and_eq_true, decide_eq_true_eq] at hd
            rcases hd with hd | hd
            · exact hd
            · exact absurd hd hw
          have h3 : (deliver i.sig_after_recv
              (receive_from (deliver i.sig_before_recv s) i.recv)).is_terminated = true ∧
              1 ≤ (deliver i.sig_after_recv
                (receive_from (deliver i.sig_before_recv s) i.recv)).pipe_unread := by
            rcases hbw with hb | ha
            · rw [hb]
              cases i.sig_after_recv <;> simp [deliver, on_signal, receive_from]
            · rw [ha]
              simp [deliver, on_signal, receive_from]
          exact ⟨hterm h3.1, le_trans h3.2 hpipe⟩
      · simp [deliver, on_signal]
    · intro hd
      simp only [signal_delivered, Bool.or_eq_false_iff, Bool.and_eq_false_iff,
        decide_eq_false_iff_not] at hd
      obtain ⟨⟨⟨hb, ha⟩, hc⟩, hw⟩ := hd
      rw [hb, ha] at hs4 hns
      rw [hc]
      simp only [deliver, Bool.false_eq_true, if_false] at hs4 hns ⊢
      by_cases hws : i.wait = WaitEnv.signal
      · have hnw : waits i.recv.status = false := by
          rcases hw with hw | hw
          · exact absurd hws hw
          · exact hw
        unfold switch_status at hs4
        cases hst : i.recv.status <;> rw [hst] at hs4 hnw <;> simp [waits] at hnw <;>
          simp only at hs4 <;> have h1 := Option.some.inj hs4 <;> subst h1
        · unfold default_case; split <;> simp [receive_from]
        · simp [receive_from]
        · unfold default_case; split <;> simp [receive_from]
      · rw [hns hws]; simp [receive_from]

/-- The `switch` completes when the wait step it may enter returns. -/
lemma switch_isSome (s : LoopState) (i : IterInput)
    (h : 0 < s.pipe_unread ∨ wait_returns i = true) :
    ∃ s1, switch_status s i = some s1 := by
  have hb : ∀ (s0 : LoopState) (tv : timeval), s0.pipe_unread = s.pipe_unread →
      ∃ s1, block s0 i.recv.status tv i.wait = some s1 := by
    intro s0 tv hs0
    apply block_isSome
    rcases h with h | h
    · exact Or.inl (by rw [hs0]; exact h)
    · simp only [wait_returns, Bool.or_eq_true, decide_eq_true_eq] at h
      exact Or.inr h
  unfold switch_status
  cases hst : i.recv.status <;> simp only
  · exact ⟨_, rfl⟩
  · exact ⟨_, rfl⟩
  · have := hb s i.tv_uninit rfl
    rwa [hst] at this
  · have := hb { s with trace := s.trace ++ [LoopEvent.get_option remain_option.PGM_RATE_REMAIN] }
      i.rate_remain rfl
    rwa [hst] at this
  · have := hb { s with trace := s.trace ++ [LoopEvent.get_option remain_option.PGM_TIME_REMAIN] }
      i.time_remain rfl
    rwa [hst] at this
  · exact ⟨_, rfl⟩

/-- The loop body reaches the loop condition when a signal arrived before the
wait step, when the pipe already holds a byte, or when the wait step returns. -/
lemma body_isSome (s : LoopState) (i : IterInput)
    (h : signal_before_wait i = true ∨ 0 < s.pipe_unread ∨ wait_returns i = true) :
    ∃ s1, loop_body s i = some s1 := by
  have hsw : ∃ s4, switch_status (deliver i.sig_after_recv
      (receive_from (deliver i.sig_before_recv s) i.recv)) i = some s4 := by
    apply switch_isSome
    rcases h with h | h | h
    · left
      simp only [signal_before_wait, Bool.or_eq_true] at h
      rcases h with h | h
      · rw [h]; cases i.sig_after_recv <;> simp [deliver, on_signal, receive_from]
      · rw [h]; simp [deliver, on_signal, receive_from]
    · left
      cases i.sig_before_recv <;> cases i.sig_after_recv <;>
        simp [deliver, on_signal, receive_from]
      omega
    · exact Or.inr h
  obtain ⟨s4, hs4⟩ := hsw
  exact ⟨deliver i.sig_before_check s4, by simp [loop_body, hs4]⟩

/-- Every `select` call of a trace has one timeout and one result. -/
lemma select_calls_length (evs : List LoopEvent) :
    (select_calls evs).length = (select_results evs).length := by
  induction evs with
  | nil => rfl
  | cons e es ihe =>
    cases e <;> simp [select_calls, select_results, List.filterMap_cons] at ihe ⊢ <;> exact ihe

end LoopLemmas

/-- C2: while the flag stays unset the loop makes one receive attempt per
iteration, calls `on_data` once for each Normal status, in order and with that
attempt's payload, length and origin, and for no other status, and enters the
wait step once for each TimerPending, RateLimited or WouldBlock status and for
no other; on WouldBlock, WouldBlock, Normal (`hello`, 5, `E`) the trace is
receive, wait, receive, wait, receive, `on_data` (`hello`, 5, `E`). -/
theorem loop_trace_per_status (s : LoopState) (inputs : List IterInput) (E : endpoint)
    (h0 : s.is_terminated = false)
    (hns : ∀ i ∈ inputs, signal_delivered i = false)
    (hw : ∀ i ∈ inputs, wait_returns i = true) :
    (∃ sf, dispatch_loop s inputs = LoopOutcome.running sf ∧ sf.is_terminated = false ∧
      recv_count sf.trace = recv_count s.trace + inputs.length ∧
      data_calls sf.trace = data_calls s.trace ++ inputs.flatMap spec_data_calls ∧
      (select_calls sf.trace).length = (select_calls s.trace).length +
        (inputs.filter (fun i => waits i.recv.status)).length) ∧
    dispatch_loop loop_init (hello_scenario E) = LoopOutcome.running
      { is_terminated := false, pipe_unread := 0, pgm_err := none,
        trace := [LoopEvent.receive_from, LoopEvent.select none ⟨1, false, true⟩,
          LoopEvent.receive_from, LoopEvent.select none ⟨1, false, true⟩,
          LoopEvent.receive_from, LoopEvent.on_data hello 5 E] } := by
  refine ⟨?_, rfl⟩
  induction inputs generalizing s with
  | nil => exact ⟨s, rfl, h0, by simp, by simp, by simp⟩
  | cons i rest ih =>
    have hi : signal_delivered i = false := hns i (List.mem_cons_self _ _)
    obtain ⟨s1, h1⟩ := body_isSome s i (Or.inr (Or.inr (hw i (List.mem_cons_self _ _))))
    obtain ⟨evs, htr, hrc, hdc, hsc, hsr, -, -, -, -, hkeep⟩ := body_spec s s1 i h1
    have ht1 : s1.is_terminated = false := by rw [hkeep hi]; exact h0
    obtain ⟨sf, hrun, htf, hr, hd, hsel⟩ := ih s1 ht1
      (fun j hj => hns j (List.mem_cons_of_mem _ hj))
      (fun j hj => hw j (List.mem_cons_of_mem _ hj))
    refine ⟨sf, by simp [dispatch_loop, h1, ht1, hrun], htf, ?_, ?_, ?_⟩
    · rw [hr, htr]
      simp only [recv_count] at hrc ⊢
      simp only [List.filter_append, List.length_append, List.filter_cons, List.length_cons,
        decide_True, if_true, hrc]
      omega
    · rw [hd, htr]
      simp only [data_calls] at hdc ⊢
      simp [hdc]
    · rw [hsel, htr]
      have hlen : (select_calls evs).length = if waits i.recv.status = true then 1 else 0 := by
        rw [select_calls_length, hsr]
      simp only [select_calls] at hlen ⊢
      simp only [List.filterMap_append, List.length_append, List.filterMap_cons,
        List.filter_cons, hlen]
      cases waits i.recv.status <;> simp
      omega

/-- C2 on the sequence WouldBlock, WouldBlock, Normal (`hello`, 5, `E`) with
`E` the endpoint of port 7500. -/
theorem loop_trace_per_status_witness :
    (loop_init.is_terminated = false ∧
      (∀ i ∈ hello_scenario ⟨[1, 2], 7500⟩, signal_delivered i = false) ∧
      (∀ i ∈ hello_scenario ⟨[1, 2], 7500⟩, wait_returns i = true)) ∧
    ((∃ sf, dispatch_loop loop_init (hello_scenario ⟨[1, 2], 7500⟩) = LoopOutcome.running sf ∧
      sf.is_terminated = false ∧
      recv_count sf.trace = recv_count loop_init.trace + (hello_scenario ⟨[1, 2], 7500⟩).length ∧
      data_calls sf.trace = data_calls loop_init.trace ++
        (hello_scenario ⟨[1, 2], 7500⟩).flatMap spec_data_calls ∧
      (select_calls sf.trace).length = (select_calls loop_init.trace).length +
        ((hello_scenario ⟨[1, 2], 7500⟩).filter (fun i => waits i.recv.status)).length) ∧
    dispatch_loop loop_init (hello_scenario ⟨[1, 2], 7500⟩) = LoopOutcome.running
      { is_terminated := false, pipe_unread := 0, pgm_err := none,
        trace := [LoopEvent.receive_from, LoopEvent.select none ⟨1, false, true⟩,
          LoopEvent.receive_from, LoopEvent.select none ⟨1, false, true⟩,
          LoopEvent.receive_from, LoopEvent.on_data hello 5 ⟨[1, 2], 7500⟩] }) :=
  ⟨⟨rfl, by decide, by decide⟩,
    loop_trace_per_status loop_init (hello_scenario ⟨[1, 2], 7500⟩) ⟨[1, 2], 7500⟩ rfl
      (by decide) (by decide)⟩

/-- C3: on the `select` path the wait step is entered with no timeout for
WouldBlock, with the delay reported for `PGM_RATE_REMAIN` for RateLimited, with
the duration reported for `PGM_TIME_REMAIN` for TimerPending, and is not entered
for any other status; the timeout is absent exactly for WouldBlock, and a wait
that never returns is one entered for WouldBlock. -/
theorem wait_deadline_by_status (s : LoopState) (i : IterInput) :
    (loop_body s i = none →
      i.recv.status = PGM_IO_STATUS_WOULD_BLOCK ∧ i.wait = WaitEnv.quiet) ∧
    (∀ s1, loop_body s i = some s1 →
      ∃ evs, s1.trace = s.trace ++ evs ∧
        (i.recv.status = PGM_IO_STATUS_WOULD_BLOCK → select_calls evs = [none]) ∧
        (i.recv.status = PGM_IO_STATUS_RATE_LIMITED → select_calls evs = [some i.rate_remain]) ∧
        (i.recv.status = PGM_IO_STATUS_TIMER_PENDING → select_calls evs = [some i.time_remain]) ∧
        (waits i.recv.status = false → select_calls evs = []) ∧
        (none ∈ select_calls evs ↔ i.recv.status = PGM_IO_STATUS_WOULD_BLOCK)) := by
  constructor
  · intro hn
    by_cases hw : wait_returns i = true
    · obtain ⟨s1, h1⟩ := body_isSome s i (Or.inr (Or.inr hw))
      rw [hn] at h1
      exact absurd h1 (by simp)
    · simp only [wait_returns, Bool.or_eq_true, decide_eq_true_eq, not_or, not_not] at hw
      exact ⟨hw.2, hw.1⟩
  · intro s1 h
    obtain ⟨evs, htr, -, -, hsc, -⟩ := body_spec s s1 i h
    refine ⟨LoopEvent.receive_from :: evs, htr, ?_⟩
    have hcons : select_calls (LoopEvent.receive_from :: evs) = select_calls evs := by
      simp [select_calls]
    rw [hcons, hsc]
    unfold spec_wait_deadlines
    cases hst : i.recv.status <;> simp [waits]

/-- C3 at a RateLimited status with 1.5 ms of pacing delay remaining. -/
theorem wait_deadline_by_status_witness :
    loop_body loop_init rate_limited_input = some
      { is_terminated := false, pipe_unread := 0, pgm_err := none,
        trace := [LoopEvent.receive_from, LoopEvent.get_option remain_option.PGM_RATE_REMAIN,
          LoopEvent.select (some ⟨0, 1500⟩) ⟨0, false, true⟩] } ∧
    ∃ evs, [LoopEvent.receive_from, LoopEvent.get_option remain_option.PGM_RATE_REMAIN,
          LoopEvent.select (some ⟨0, 1500⟩) ⟨0, false, true⟩] = loop_init.trace ++ evs ∧
      (rate_limited_input.recv.status = PGM_IO_STATUS_WOULD_BLOCK → select_calls evs = [none]) ∧
      (rate_limited_input.recv.status = PGM_IO_STATUS_RATE_LIMITED →
        select_calls evs = [some rate_limited_input.rate_remain]) ∧
      (rate_limited_input.recv.status = PGM_IO_STATUS_TIMER_PENDING →
        select_calls evs = [some rate_limited_input.time_remain]) ∧
      (waits rate_limited_input.recv.status = false → select_calls evs = []) ∧
      (none ∈ select_calls evs ↔ rate_limited_input.recv.status = PGM_IO_STATUS_WOULD_BLOCK) :=
  ⟨rfl, (wait_deadline_by_status loop_init rate_limited_input).2 _ rfl⟩

/-- C4: `on_signal` leaves `is_terminated` true and a byte in the pipe; no pass
through the loop body clears the flag or takes a byte out of the pipe; a wait
step entered with a byte in the pipe returns without blocking and, unless
`select` failed, with the pipe reported readable; and an iteration during which
a signal is delivered reaches the loop condition after at most one wait and the
loop exits there. -/
theorem termination_not_missed (s : LoopState) (i : IterInput) (rest : List IterInput)
    (hsig : signal_delivered i = true)
    (hret : signal_before_wait i = true ∨ 0 < s.pipe_unread ∨ wait_returns i = true) :
    (∀ t, (on_signal t).is_terminated = true ∧ 1 ≤ (on_signal t).pipe_unread) ∧
    (∀ t j t1, loop_body t j = some t1 →
      (t.is_terminated = true → t1.is_terminated = true) ∧ t.pipe_unread ≤ t1.pipe_unread) ∧
    (∀ p w tmo r, 0 < p → select_model p w tmo = some r →
      r.blocked = false ∧ (0 ≤ r.ret → r.term_ready = true)) ∧
    ∃ s1 evs, loop_body s i = some s1 ∧ s1.trace = s.trace ++ evs ∧
      s1.is_terminated = true ∧ 1 ≤ s1.pipe_unread ∧
      dispatch_loop s (i :: rest) = LoopOutcome.exited s1 ∧
      (select_results evs).length ≤ 1 ∧
      (signal_before_wait i = true ∨ 0 < s.pipe_unread →
        ∀ r ∈ select_results evs, r.blocked = false ∧ (0 ≤ r.ret → r.term_ready = true)) := by
  refine ⟨fun t => by simp [on_signal], ?_, fun p w tmo r hp hr => select_ready p w tmo r hp hr, ?_⟩
  · intro t j t1 ht
    obtain ⟨evs, -, -, -, -, -, -, hterm, hpipe, -⟩ := body_spec t t1 j ht
    exact ⟨hterm, hpipe⟩
  · obtain ⟨s1, h1⟩ := body_isSome s i hret
    obtain ⟨evs, htr, -, -, -, hsr, ⟨p, hp0, hp1, hsel⟩, -, -, hdel, -⟩ := body_spec s s1 i h1
    have hres : select_results (LoopEvent.receive_from :: evs) = select_results evs := by
      simp [select_results]
    refine ⟨s1, LoopEvent.receive_from :: evs, h1, htr, (hdel hsig).1, (hdel hsig).2, ?_, ?_, ?_⟩
    · simp [dispatch_loop, h1, (hdel hsig).1]
    · rw [hres, hsr]; split <;> simp
    · intro hb r hr
      rw [hres] at hr
      obtain ⟨tmo, htmo⟩ := hsel r hr
      have hp : 0 < p := by
        rcases hb with hb | hb
        · exact hp1 hb
        · exact lt_of_lt_of_le hb hp0
      exact select_ready p i.wait tmo r hp htmo

/-- C4 with a WouldBlock status, a signal between the receive attempt and the
wait step, and a silent environment: the wait returns at once and the loop exits. -/
theorem termination_not_missed_witness :
    (signal_delivered signal_before_wait_input = true ∧
      (signal_before_wait signal_before_wait_input = true ∨ 0 < loop_init.pipe_unread ∨
        wait_returns signal_before_wait_input = true)) ∧
    dispatch_loop loop_init [signal_before_wait_input] = LoopOutcome.exited
      { is_terminated := true, pipe_unread := 1, pgm_err := none,
        trace := [LoopEvent.receive_from, LoopEvent.select none ⟨1, true, false⟩] } ∧
    ∃ s1 evs, loop_body loop_init signal_before_wait_input = some s1 ∧
      s1.trace = loop_init.trace ++ evs ∧
      s1.is_terminated = true ∧ 1 ≤ s1.pipe_unread ∧
      dispatch_loop loop_init (signal_before_wait_input :: []) = LoopOutcome.exited s1 ∧
      (select_results evs).length ≤ 1 ∧
      (signal_before_wait signal_before_wait_input = true ∨ 0 < loop_init.pipe_unread →
        ∀ r ∈ select_results evs, r.blocked = false ∧ (0 ≤ r.ret → r.term_ready = true)) :=
  ⟨⟨by decide, Or.inl (by decide)⟩, rfl,
    (termination_not_missed loop_init signal_before_wait_input [] (by decide)
      (Or.inl (by decide))).2.2.2⟩

/-! ## Properties of the data handler -/

section CopyLemmas

/-- The copy writes the offsets `i`, ..., `i + k - 1`, in this order. -/
lemma strncpy_loop_writes (src : List Nat) :
    ∀ (k i : Nat) (p : Bool) (st : CopyState),
      (strncpy_loop src k i p st).writes = st.writes ++ List.range' i k := by
  intro k
  induction k with
  | zero => intro i p st; simp [strncpy_loop]
  | succ k ih =>
    intro i p st
    unfold strncpy_loop
    cases p
    · simp only [Bool.false_eq_true, if_false]
      rw [ih]
      simp [List.range'_succ]
    · simp only [if_true]
      rw [ih]
      simp [List.range'_succ]

/-- The copy reads the source only at offsets it writes. -/
lemma strncpy_loop_reads (src : List Nat) :
    ∀ (k i : Nat) (p : Bool) (st : CopyState) (x : Nat),
      x ∈ (strncpy_loop src k i p st).reads → x ∈ st.reads ∨ (i ≤ x ∧ x < i + k) := by
  intro k
  induction k with
  | zero => intro i p st x hx; left; simpa [strncpy_loop] using hx
  | succ k ih =>
    intro i p st x hx
    unfold strncpy_loop at hx
    cases p
    · simp only [Bool.false_eq_true, if_false] at hx
      rcases ih _ _ _ x hx with h | h
      · simp only [List.mem_append, List.mem_singleton] at h
        rcases h with h | h
        · exact Or.inl h
        · right; omega
      · right; omega
    · simp only [if_true] at hx
      rcases ih _ _ _ x hx with h | h
      · exact Or.inl h
      · right; omega

/-- The copy reads at most one source byte for each byte it writes. -/
lemma strncpy_loop_reads_length (src : List Nat) :
    ∀ (k i : Nat) (p : Bool) (st : CopyState),
      (strncpy_loop src k i p st).reads.length ≤ st.reads.length + k := by
  intro k
  induction k with
  | zero => intro i p st; simp [strncpy_loop]
  | succ k ih =>
    intro i p st
    unfold strncpy_loop
    cases p
    · simp only [Bool.false_eq_true, if_false]
      refine le_trans (ih _ _ _) ?_
      simp only [List.length_append, List.length_singleton]
      omega
    · simp only [if_true]
      refine le_trans (ih _ _ _) ?_
      simp only
      omega

/-- When no source byte in the copied range is NUL, the range of `buf` holds the
source bytes and the rest of `buf` is unchanged. -/
lemma strncpy_loop_buf (src : List Nat) :
    ∀ (k i : Nat) (st : CopyState), (∀ j, i ≤ j → j < i + k → src.getD j 0 ≠ 0) →
      ∀ j, (strncpy_loop src k i false st).buf j =
        if i ≤ j ∧ j < i + k then src.getD j 0 else st.buf j := by
  intro k
  induction k with
  | zero =>
    intro i st _ j
    have h2 : ¬ (i ≤ j ∧ j < i + 0) := by omega
    simp only [strncpy_loop, h2, if_false]
  | succ k ih =>
    intro i st hnz j
    unfold strncpy_loop
    simp only [Bool.false_eq_true, if_false]
    have hi : (src.getD i 0 == 0) = false := by
      have := hnz i (le_refl _) (by omega)
      simpa using this
    rw [hi, ih (i + 1) _ (fun j h1 h2 => hnz j (by omega) (by omega)) j]
    by_cases hj : j = i
    · subst hj
      simp
    · simp only [Function.update, hj, dif_neg, not_false_eq_true]
      by_cases h1 : i + 1 ≤ j ∧ j < i + 1 + k
      · have h2 : i ≤ j ∧ j < i + (k + 1) := by omega
        simp [h1, h2]
      · have h2 : ¬ (i ≤ j ∧ j < i + (k + 1)) := by omega
        simp [h1, h2]

/-- The rendered text of a memory holding `n` bytes other than NUL from offset
`i` on, then NUL. -/
lemma c_string_eq (mem : Nat → Nat) :
    ∀ (n fuel i : Nat), n < fuel → (∀ j, i ≤ j → j < i + n → mem j ≠ 0) → mem (i + n) = 0 →
      c_string mem fuel i = (List.range' i n).map mem := by
  intro n
  induction n with
  | zero =>
    intro fuel i hf _ hz
    cases fuel with
    | zero => omega
    | succ f => simp [c_string, Nat.add_zero] at hz ⊢; exact hz
  | succ n ih =>
    intro fuel i hf hnz hz
    cases fuel with
    | zero => omega
    | succ f =>
      unfold c_string
      have h0 : mem i ≠ 0 := hnz i (le_refl _) (by omega)
      simp only [h0, if_false, List.range'_succ, List.map_cons]
      rw [ih f (i + 1) (by omega) (fun j h1 h2 => hnz j (by omega) (by omega))
        (by rw [← hz]; congr 1; omega)]

end CopyLemmas

/-- C8: for every payload and every length, `on_data` writes the offsets
0, ..., min(len, 1023) - 1 of its 1024-byte buffer and then the terminator at
offset min(len, 1023), so every offset written is at most 1023; it reads at
most min(len, 1023) payload bytes, each at an offset below `len`; when none of
the first min(len, 1023) payload bytes is NUL the rendered text is exactly
those bytes; the byte count printed is `len` and the handler returns 0. -/
theorem on_data_truncates (uninit : Nat → Nat) (data : List Nat) (len : Nat) (src : endpoint) :
    (on_data uninit data len src).writes = List.range (min len 1023) ++ [min len 1023] ∧
    (∀ w ∈ (on_data uninit data len src).writes, w ≤ 1023) ∧
    (on_data uninit data len src).buf (min len 1023) = 0 ∧
    (on_data uninit data len src).reads.length ≤ min len 1023 ∧
    (∀ x ∈ (on_data uninit data len src).reads, x < len ∧ x < 1023) ∧
    ((∀ j, j < min len 1023 → data.getD j 0 ≠ 0) →
      (on_data uninit data len src).printed_text =
        (List.range (min len 1023)).map (fun j => data.getD j 0)) ∧
    (on_data uninit data len src).printed_len = len ∧
    (on_data uninit data len src).ret = 0 := by
  have hmin : min (1024 - 1) len = min len 1023 := by
    rw [Nat.min_comm]
  have hw : (on_data uninit data len src).writes = List.range (min len 1023) ++ [min len 1023] := by
    simp only [on_data, strncpy, hmin, strncpy_loop_writes, List.nil_append,
      List.range_eq_range']
  refine ⟨hw, ?_, ?_, ?_, ?_, ?_, rfl, rfl⟩
  · intro w hwm
    rw [hw] at hwm
    simp only [List.mem_append, List.mem_range, List.mem_singleton] at hwm
    have : min len 1023 ≤ 1023 := Nat.min_le_right _ _
    omega
  · simp [on_data, hmin]
  · have := strncpy_loop_reads_length data (min len 1023) 0 false
      { buf := uninit, reads := [], writes := [] }
    simpa [on_data, strncpy, hmin] using this
  · intro x hx
    have hx1 : x ∈ (strncpy_loop data (min len 1023) 0 false
        { buf := uninit, reads := [], writes := [] }).reads := by
      simpa [on_data, strncpy, hmin] using hx
    rcases strncpy_loop_reads data _ _ _ _ x hx1 with h | h
    · simp at h
    · have h1 : min len 1023 ≤ 1023 := Nat.min_le_right _ _
      have h2 : min len 1023 ≤ len := Nat.min_le_left _ _
      omega
  · intro hnz
    have hbuf := strncpy_loop_buf data (min len 1023) 0
      { buf := uninit, reads := [], writes := [] }
      (fun j _ h2 => hnz j (by omega))
    have hlt : min len 1023 < 1024 := by
      have : min len 1023 ≤ 1023 := Nat.min_le_right _ _
      omega
    simp only [on_data, strncpy, hmin]
    rw [c_string_eq _ (min len 1023) 1024 0 hlt]
    · rw [List.range_eq_range']
      apply List.map_congr_left
      intro j hj
      have hj1 : j < min len 1023 := by
        simp only [List.mem_range'_1] at hj
        omega
      have hne : j ≠ min len 1023 := by omega
      simp only [Function.update, hne, dif_neg, not_false_eq_true]
      rw [hbuf j]
      simp [hj1]
    · intro j _ hj2
      have hj1 : j < min len 1023 := by omega
      have hne : j ≠ min len 1023 := by omega
      simp only [Function.update, hne, dif_neg, not_false_eq_true]
      rw [hbuf j]
      simp only [Nat.zero_le, true_and, Nat.zero_add, hj1, if_true]
      exact hnz j hj1
    · show Function.update _ (min len 1023) 0 (0 + min len 1023) = 0
      rw [Nat.zero_add, Function.update_same]

/-- C8 on a payload of 1024 + 1000 bytes, none of them NUL: the text rendered
is the first 1023 bytes. -/
theorem on_data_truncates_witness :
    (∀ j, j < min (1024 + 1000) 1023 → overlong_payload.getD j 0 ≠ 0) ∧
    (on_data (fun _ => 0) overlong_payload (1024 + 1000) ⟨[], 7500⟩).printed_text =
      (List.range (min (1024 + 1000) 1023)).map (fun j => overlong_payload.getD j 0) :=
  have h : ∀ j, j < min (1024 + 1000) 1023 → overlong_payload.getD j 0 ≠ 0 := by
    intro j hj
    have hj1 : j < 1024 + 1000 := lt_of_lt_of_le hj (Nat.min_le_left _ _)
    show (List.replicate (1024 + 1000) 65).getD j 0 ≠ 0
    rw [List.getD_eq_getElem?_getD, List.getElem?_replicate_of_lt hj1]
    exact Nat.succ_ne_zero 64
  ⟨h, (on_data_truncates (fun _ => 0) overlong_payload (1024 + 1000) ⟨[], 7500⟩).2.2.2.2.2.1 h⟩

/-! ## Properties of the Windows wait path -/

section StartupLemmas

lemma err_abort_all (s : pgm_socket) (res : pgm_addrinfo_t) (m : String)
    (ep : Option endpoint) (tr : List SysEvent) :
    err_abort (some s) (some res) (some m) ep tr =
      { ret := false, sock := none, endpoint := ep,
        trace := tr ++ [SysEvent.sock_close false, SysEvent.pgm_freeaddrinfo,
          SysEvent.pgm_error_free] } := by
  simp [err_abort]

lemma err_abort_error_only (m : String) (ep : Option endpoint) (tr : List SysEvent) :
    err_abort none none (some m) ep tr =
      { ret := false, sock := none, endpoint := ep,
        trace := tr ++ [SysEvent.pgm_error_free] } := by
  simp [err_abort]

/-- The shape of the trace of `on_startup` on each of its five paths. -/
lemma on_startup_cases (g : Globals) (env : StartupEnv) :
    (∃ m, env.getaddrinfo = Except.error m ∧
      on_startup g none none env =
      { ret := false, sock := none, endpoint := none,
        trace := [SysEvent.on_startup, SysEvent.pgm_getaddrinfo g.network false,
          SysEvent.fprintf_stderr ("Parsing network parameter: " ++ m)] ++
          [SysEvent.pgm_error_free] }) ∨
    (∃ res m, env.getaddrinfo = Except.ok res ∧ env.open_err = some m ∧
      on_startup g none none env =
      { ret := false, sock := none, endpoint := none,
        trace := [SysEvent.on_startup, SysEvent.pgm_getaddrinfo g.network true,
            SysEvent.new_socket] ++
          open_events g res.ai_send_addrs_0.ss_family false ++
          [SysEvent.fprintf_stderr (open_failure_message g m)] ++
          [SysEvent.sock_close false, SysEvent.pgm_freeaddrinfo, SysEvent.pgm_error_free] }) ∨
    (∃ res m, env.getaddrinfo = Except.ok res ∧ env.open_err = none ∧ env.bind_err = some m ∧
      on_startup g none none env =
      { ret := false, sock := none,
        endpoint := some ⟨[], DEFAULT_DATA_DESTINATION_PORT⟩,
        trace := [SysEvent.on_startup, SysEvent.pgm_getaddrinfo g.network true,
            SysEvent.new_socket] ++
          open_events g res.ai_send_addrs_0.ss_family true ++ pre_bind_options g ++
          [SysEvent.new_endpoint DEFAULT_DATA_DESTINATION_PORT] ++
          [SysEvent.sock_bind false, SysEvent.fprintf_stderr ("Binding PGM socket: " ++ m)] ++
          [SysEvent.sock_close false, SysEvent.pgm_freeaddrinfo, SysEvent.pgm_error_free] }) ∨
    (∃ res m, env.getaddrinfo = Except.ok res ∧ env.open_err = none ∧ env.bind_err = none ∧
      env.connect_err = some m ∧
      on_startup g none none env =
      { ret := false, sock := none,
        endpoint := some ⟨[], DEFAULT_DATA_DESTINATION_PORT⟩,
        trace := [SysEvent.on_startup, SysEvent.pgm_getaddrinfo g.network true,
            SysEvent.new_socket] ++
          open_events g res.ai_send_addrs_0.ss_family true ++ pre_bind_options g ++
          [SysEvent.new_endpoint DEFAULT_DATA_DESTINATION_PORT] ++
          [SysEvent.sock_bind true] ++ post_bind_options g res ++
          [SysEvent.sock_connect false,
            SysEvent.fprintf_stderr ("Connecting PGM socket: " ++ m)] ++
          [SysEvent.sock_close false, SysEvent.pgm_freeaddrinfo, SysEvent.pgm_error_free] }) ∨
    (∃ res, env.getaddrinfo = Except.ok res ∧ env.open_err = none ∧ env.bind_err = none ∧
      env.connect_err = none ∧
      on_startup g none none env =
      { ret := true, sock := some ⟨true, true, true⟩,
        endpoint := some ⟨[], DEFAULT_DATA_DESTINATION_PORT⟩,
        trace := [SysEvent.on_startup, SysEvent.pgm_getaddrinfo g.network true,
            SysEvent.new_socket] ++
          open_events g res.ai_send_addrs_0.ss_family true ++ pre_bind_options g ++
          [SysEvent.new_endpoint DEFAULT_DATA_DESTINATION_PORT] ++
          [SysEvent.sock_bind true] ++ post_bind_options g res ++
          [SysEvent.sock_connect true, SysEvent.puts "Startup complete."] }) := by
  rcases env with ⟨ga, oe, be, ce⟩
  cases ga with
  | error m =>
    left
    exact ⟨m, rfl, by simp only [on_startup, err_abort_error_only]⟩
  | ok res =>
    right
    cases oe with
    | some m =>
      left
      exact ⟨res, m, rfl, rfl, by simp only [on_startup, err_abort_all]⟩
    | none =>
      right
      cases be with
      | some m =>
        left
        exact ⟨res, m, rfl, rfl, rfl, by simp only [on_startup, err_abort_all]⟩
      | none =>
        right
        cases ce with
        | some m =>
          left
          exact ⟨res, m, rfl, rfl, rfl, rfl, by simp only [on_startup, err_abort_all]⟩
        | none =>
          right
          exact ⟨res, rfl, rfl, rfl, rfl, by simp only [on_startup]⟩

lemma count_free_open (g : Globals) (f : Nat) (ok : Bool) :
    freeaddrinfo_count (open_events g f ok) = 0 := by
  unfold open_events freeaddrinfo_count; split <;> simp

lemma count_free_pre_bind (g : Globals) : freeaddrinfo_count (pre_bind_options g) = 0 := by
  unfold pre_bind_options freeaddrinfo_count
  by_cases hu : g.udp_encap_port ≠ 0 <;> cases hf : g.use_fec <;> simp [hu]

lemma count_free_join (l : List group_req) :
    freeaddrinfo_count
      (l.map (fun a => SysEvent.set_option PGM_JOIN_GROUP (optval.group a))) = 0 := by
  unfold freeaddrinfo_count
  induction l with
  | nil => rfl
  | cons a l ih => simpa [List.count_cons] using ih

/-- After the group joins the address list is released once. -/
lemma count_free_post_bind (g : Globals) (res : pgm_addrinfo_t) :
    freeaddrinfo_count (post_bind_options g res) = 1 := by
  have h := count_free_join res.ai_recv_addrs
  unfold post_bind_options
  unfold freeaddrinfo_count at h ⊢
  rw [List.count_append, h]
  simp [List.count_cons]

lemma count_free_append (l1 l2 : List SysEvent) :
    freeaddrinfo_count (l1 ++ l2) = freeaddrinfo_count l1 + freeaddrinfo_count l2 := by
  simp [freeaddrinfo_count]

end StartupLemmas

/-- C10: on the path where resolve, open and bind succeed and `connect` fails,
`on_startup` returns FALSE having called `pgm_freeaddrinfo` twice on the
resolved address list: once after the group joins, once at `err_abort`. -/
theorem connect_failure_frees_addrinfo_twice (g : Globals) (env : StartupEnv)
    (res : pgm_addrinfo_t) (m : String)
    (h1 : env.getaddrinfo = Except.ok res) (h2 : env.open_err = none)
    (h3 : env.bind_err = none) (h4 : env.connect_err = some m) :
    (on_startup g none none env).ret = false ∧
    freeaddrinfo_count (on_startup g none none env).trace = 2 := by
  rcases on_startup_cases g env with ⟨m1, e1, h⟩ | ⟨r1, m1, e1, e2, h⟩ | ⟨r1, m1, e1, e2, e3, h⟩ |
    ⟨r1, m1, e1, e2, e3, e4, h⟩ | ⟨r1, e1, e2, e3, e4, h⟩
  · rw [h1] at e1; cases e1
  · rw [h2] at e2; cases e2
  · rw [h3] at e3; cases e3
  · rw [h]
    refine ⟨rfl, ?_⟩
    simp only [count_free_append, count_free_open, count_free_pre_bind, count_free_post_bind]
    simp [freeaddrinfo_count, List.count_cons]
  · rw [h4] at e4; cases e4

/-- C10 at one receive group and a failing `connect`: two `pgm_freeaddrinfo` calls. -/
theorem connect_failure_frees_addrinfo_twice_witness :
    (env_connect_fails.getaddrinfo = Except.ok sample_addrinfo ∧
      env_connect_fails.open_err = none ∧ env_connect_fails.bind_err = none ∧
      env_connect_fails.connect_err = some "connect failed") ∧
    (on_startup globals_init none none env_connect_fails).ret = false ∧
    freeaddrinfo_count (on_startup globals_init none none env_connect_fails).trace = 2 :=
  ⟨⟨rfl, rfl, rfl, rfl⟩,
    connect_failure_frees_addrinfo_twice globals_init env_connect_fails sample_addrinfo
      "connect failed" rfl rfl rfl rfl⟩

end Purinrecv
